import Mathlib

/-!
Shallow embedding of the multi-replica synchronization engine of
`src/server/public/js/api-service.js` (the `ApiService` object and the
`SyncManager` object).

Modelling conventions:
* `Date.now()` readings and version markers are `Nat` (the code treats them
  as millisecond integers, compared with `>` and stored as decimal strings).
* Monetary fields that the code passes through `parseFloat` are modelled as
  `Int`; the claims under study depend only on structural equality of the
  mapped records, never on float arithmetic.
* `JSON.stringify(a) !== JSON.stringify(b)` on two inventory arrays of the
  fixed record shape produced by `pullFromServer` is modelled as structural
  inequality of the corresponding `List LocalRecord` values: on that fixed
  shape, with fields emitted in a fixed order, stringification is injective.
* The network is an explicit input: each call that performs a `fetch`
  receives the `HttpResponse` the fetch would produce; each push receives a
  `PushOutcome`.  `sessionStorage`/`localStorage`/in-memory globals are
  fields of an explicit `SyncState` record threaded through every function.
* `Auth.logout()` is modelled as setting a `loggedOut` flag (the surfaced
  session-expired condition visible to the hosting application).
-/

/-- The well-known `localStorage` key holding the current version marker
(`SyncManager.VERSION_KEY = 'repairflow_data_version'`). -/
def VERSION_KEY : String := "repairflow_data_version"

/-- One inventory record as held in local state (`State._state.inventory`),
with exactly the fields built by the mapper inside
`SyncManager.pullFromServer` (lines 190-211 of api-service.js). -/
structure LocalRecord where
  id : String
  itemType : String
  brand : String
  model : String
  serial : String
  source : String
  seller : String
  buy : Int
  base_sell_price : Int
  current_price : Int
  sell : Option Int
  status : String
  visual : String
  specs : String
  date : String
  warranty_months : Int
  warranty_expires : Option String
  sold_date : Option String
  sold_to : Option String
  price_override : Option String
deriving DecidableEq

/-- One raw inventory row as returned by `GET /api/inventory`, with the
fields read by the mapper in `pullFromServer`.  Fields the server may omit
or return as null are `Option`. -/
structure ServerItem where
  id : Nat
  itemType : String
  brand : String
  model : String
  serial : String
  source : String
  seller : Option String
  buy_price : Int
  base_sell_price : Int
  current_price : Int
  sold_price : Option Int
  status : String
  visual_grade : String
  specs : Option String
  created_at : String
  warranty_months : Option Int
  warranty_expires : Option String
  sold_date : Option String
  sold_to : Option String
  price_override_reason : Option String
deriving DecidableEq

/-- The per-item mapping applied by `pullFromServer` to each fetched row
(lines 190-211).  JavaScript truthiness is preserved: `item.sold_price ?
parseFloat(item.sold_price) : null` yields null for a 0 price,
`item.seller || two-quotes` yields the empty string for null/empty,
`item.warranty_months || 0` yields 0 for null/0, and
`item.price_override_reason ? {reason} : null` yields null for an empty
reason string. -/
def mapServerItem (item : ServerItem) : LocalRecord where
  id := toString item.id
  itemType := item.itemType
  brand := item.brand
  model := item.model
  serial := item.serial
  source := item.source
  seller := item.seller.getD ""
  buy := item.buy_price
  base_sell_price := item.base_sell_price
  current_price := item.current_price
  sell := match item.sold_price with
    | some v => if v = 0 then none else some v
    | none => none
  status := item.status
  visual := item.visual_grade
  specs := item.specs.getD ""
  date := item.created_at
  warranty_months := item.warranty_months.getD 0
  warranty_expires := item.warranty_expires
  sold_date := item.sold_date
  sold_to := item.sold_to
  price_override := match item.price_override_reason with
    | some r => if r = "" then none else some r
    | none => none

/-- A pending change as pushed by `pushToServer`'s catch block:
`this.pendingChanges.push({ action, itemData, timestamp: Date.now() })`.
Note the record carries no attempts counter of any kind. -/
structure PendingChange where
  action : String
  itemData : LocalRecord
  timestamp : Nat
deriving DecidableEq

/-- The message posted on the BroadcastChannel by `broadcastChange`
(payload `data` and the ISO timestamp string are omitted: no claim under
study depends on them). -/
structure ChangeEvent where
  action : String
  version : Nat
deriving DecidableEq

/-- The mutable state of one execution context (one tab): the
`ApiService` token, the `SyncManager` fields, and the two well-known
storage locations (`STORAGE_KEY` snapshot and `VERSION_KEY` marker). -/
structure SyncState where
  /-- `ApiService.token` (also mirrors the sessionStorage copy). -/
  token : Option String
  /-- Whether `Auth.logout()` has been invoked: the session-expired
  condition surfaced to the hosting application. -/
  loggedOut : Bool
  /-- The `USE_API` global flag. -/
  useApi : Bool
  /-- Whether a BroadcastChannel was available at init
  (`'BroadcastChannel' in window`). -/
  hasChannel : Bool
  /-- `SyncManager.lastSyncTimestamp`. -/
  lastSyncTimestamp : Nat
  /-- `SyncManager.isSyncing`. -/
  isSyncing : Bool
  /-- `State._state.inventory`, the in-memory inventory. -/
  inventory : List LocalRecord
  /-- The inventory part of the snapshot persisted under `STORAGE_KEY`. -/
  storedInventory : List LocalRecord
  /-- The marker persisted under `VERSION_KEY` (`parseInt(...) || 0`). -/
  storedVersion : Nat
  /-- `SyncManager.pendingChanges`. -/
  pendingChanges : List PendingChange
deriving DecidableEq

/-- The body a `fetch` of `/api/inventory` resolves with, as far as
`pullFromServer`'s `Array.isArray` check distinguishes it. -/
inductive InventoryBody where
  | items (l : List ServerItem)
  | nonArray
deriving DecidableEq

/-- The relevant classes of response a single `fetch` can produce, as
`ApiService.request` distinguishes them: a 2xx body, a 401, another
non-ok status carrying an error message, or a thrown network failure
(message 'Failed to fetch'). -/
inductive HttpResponse where
  | ok (body : InventoryBody)
  | unauthorized
  | httpError (msg : String)
  | networkFailure
deriving DecidableEq

/-- The error a call to `ApiService.request` can throw to its caller. -/
inductive RequestError where
  | sessionExpired
  | serverError (msg : String)
deriving DecidableEq

/-- `ApiService.request` (lines 29-58): on 401 it clears the token, calls
`Auth.logout()` and throws the session-expired error (rethrown by the
catch since its message differs from 'Failed to fetch'); on another
non-ok status it throws the server's error; on a thrown network failure
it returns null (`Option.none`); on success it returns the parsed body. -/
def request (st : SyncState) (resp : HttpResponse) :
    SyncState × Except RequestError (Option InventoryBody) :=
  match resp with
  | .unauthorized =>
      ({ st with token := none, loggedOut := true }, .error .sessionExpired)
  | .httpError msg => (st, .error (.serverError msg))
  | .networkFailure => (st, .ok none)
  | .ok body => (st, .ok (some body))

/-- `SyncManager.broadcastChange` (lines 123-136): stamps the mutation
with `Date.now()` (the `now` argument), writes the marker to
`localStorage[VERSION_KEY]`, sets `lastSyncTimestamp`, and posts a
message when a channel exists.  Returns the updated state, the issued
version marker, and the posted event (if any). -/
def broadcastChange (st : SyncState) (action : String) (now : Nat) :
    SyncState × Nat × Option ChangeEvent :=
  let version := now
  ({ st with storedVersion := version, lastSyncTimestamp := version },
   version,
   if st.hasChannel then some { action := action, version := version } else none)

/-- `SyncManager.handleSyncMessage` (lines 138-147): adopt the received
version only when it is strictly greater than `lastSyncTimestamp`. -/
def handleSyncMessage (st : SyncState) (version : Nat) : SyncState :=
  if version > st.lastSyncTimestamp then
    { st with lastSyncTimestamp := version }
  else st

/-- `SyncManager.handleStorageChange` (lines 149-159): only reacts to the
version key; `parseInt(event.newValue) || 0` is `Option.getD 0`; adopts
the new version only when strictly greater. -/
def handleStorageChange (st : SyncState) (key : String) (newValue : Option Nat) :
    SyncState :=
  if key = VERSION_KEY then
    let newVersion := newValue.getD 0
    if newVersion > st.lastSyncTimestamp then
      { st with lastSyncTimestamp := newVersion }
    else st
  else st

/-- The observable effects of one `pullFromServer` invocation: whether a
remote fetch was issued, whether the snapshot was saved (localStorage
write), and the broadcast event posted (if any). -/
structure PullEffects where
  fetched : Bool
  saved : Bool
  broadcastEvent : Option ChangeEvent
deriving DecidableEq

/-- `SyncManager.pullFromServer` (lines 183-227).  The guard on line 184
returns immediately (no fetch) unless `USE_API` holds, a token is held
and no pull is in flight.  Otherwise `isSyncing` is set, the inventory is
fetched through `ApiService.request`, and — only when the response is an
array whose mapped records differ structurally from the in-memory
inventory — the state is replaced, persisted, and broadcast with a fresh
`Date.now()` stamp.  The catch absorbs any thrown error; the finally
clause clears `isSyncing` on every path that started a pull. -/
def pullFromServer (st : SyncState) (resp : HttpResponse) (now : Nat) :
    SyncState × PullEffects :=
  if !st.useApi || st.token.isNone || st.isSyncing then
    (st, { fetched := false, saved := false, broadcastEvent := none })
  else
    let st1 := { st with isSyncing := true }
    let res := request st1 resp
    match res.2 with
    | .error _ =>
        ({ res.1 with isSyncing := false },
         { fetched := true, saved := false, broadcastEvent := none })
    | .ok none =>
        ({ res.1 with isSyncing := false },
         { fetched := true, saved := false, broadcastEvent := none })
    | .ok (some .nonArray) =>
        ({ res.1 with isSyncing := false },
         { fetched := true, saved := false, broadcastEvent := none })
    | .ok (some (.items items)) =>
        let localInventory := items.map mapServerItem
        if res.1.inventory ≠ localInventory then
          let st3 := { res.1 with
            inventory := localInventory, storedInventory := localInventory }
          let bc := broadcastChange st3 "inventory_sync" now
          ({ bc.1 with isSyncing := false },
           { fetched := true, saved := true, broadcastEvent := bc.2.2 })
        else
          ({ res.1 with isSyncing := false },
           { fetched := true, saved := false, broadcastEvent := none })

/-- `SyncManager.checkForUpdates` (lines 170-181): first adopts the stored
version when it is strictly greater than `lastSyncTimestamp`, then — when
`USE_API` holds and a token is held — performs a pull. -/
def checkForUpdates (st : SyncState) (resp : HttpResponse) (now : Nat) :
    SyncState × PullEffects :=
  let st1 :=
    if st.storedVersion > st.lastSyncTimestamp then
      { st with lastSyncTimestamp := st.storedVersion }
    else st
  if st1.useApi && st1.token.isSome then pullFromServer st1 resp now
  else (st1, { fetched := false, saved := false, broadcastEvent := none })

/-- The outcome of one remote submission attempted by `pushToServer`. -/
inductive PushOutcome where
  | success
  | failure (msg : String)
deriving DecidableEq

/-- Whether a push outcome is a failure (a thrown error at the call
site). -/
def PushOutcome.isFailure : PushOutcome → Bool
  | .success => false
  | .failure _ => true

/-- What one `pushToServer` call reports back: whether a remote
submission was issued at all, and whether the caller received a non-null
result. -/
structure PushReport where
  submitted : Bool
  result : Bool
deriving DecidableEq

/-- `SyncManager.pushToServer` (lines 229-283).  The guard on line 230
returns null (no submission, no re-enqueue) when `USE_API` is off or no
token is held.  Otherwise the action-specific request is issued
(abstracted into `outcome`); on success the result is returned; on any
thrown error the catch re-enqueues `{action, itemData, timestamp:
Date.now()}` and returns null. -/
def pushToServer (st : SyncState) (action : String) (itemData : LocalRecord)
    (outcome : PushOutcome) (now : Nat) : SyncState × PushReport :=
  if !st.useApi || st.token.isNone then
    (st, { submitted := false, result := false })
  else
    match outcome with
    | .success => (st, { submitted := true, result := true })
    | .failure _ =>
        ({ st with pendingChanges :=
            st.pendingChanges ++ [{ action := action, itemData := itemData, timestamp := now }] },
         { submitted := true, result := false })

/-- The `for (const change of changes)` loop of `retryPendingChanges`
(lines 291-293): submit each swapped-out change in order through
`pushToServer`, collecting each change with its report. -/
def drainLoop (st : SyncState) (changes : List PendingChange)
    (outcome : PendingChange → PushOutcome) (now : Nat) :
    SyncState × List (PendingChange × PushReport) :=
  match changes with
  | [] => (st, [])
  | c :: rest =>
      let step1 := pushToServer st c.action c.itemData (outcome c) now
      let step2 := drainLoop step1.1 rest outcome now
      (step2.1, (c, step1.2) :: step2.2)

/-- `SyncManager.retryPendingChanges` (lines 285-294): return immediately
on an empty queue; otherwise copy the queue, reset it to `[]` (the swap),
and push every copied change in enqueue order. -/
def retryPendingChanges (st : SyncState) (outcome : PendingChange → PushOutcome)
    (now : Nat) : SyncState × List (PendingChange × PushReport) :=
  if st.pendingChanges.isEmpty then (st, [])
  else
    let changes := st.pendingChanges
    drainLoop { st with pendingChanges := [] } changes outcome now

/-- Iterated drain cycles: `n` successive invocations of
`retryPendingChanges` with the same per-change outcomes and clock. -/
def iterDrain (n : Nat) (st : SyncState) (outcome : PendingChange → PushOutcome)
    (now : Nat) : SyncState :=
  match n with
  | 0 => st
  | n + 1 => iterDrain n (retryPendingChanges st outcome now).1 outcome now

/-- One external stimulus to a context, with the inputs the environment
supplies to it (clock readings, received versions, fetch responses). -/
inductive SyncOp where
  | broadcast (action : String) (now : Nat)
  | message (version : Nat)
  | storage (key : String) (newValue : Option Nat)
  | focus (resp : HttpResponse) (now : Nat)
  | pull (resp : HttpResponse) (now : Nat)

/-- The state reached after one stimulus (effects projected away). -/
def stepOp (st : SyncState) : SyncOp → SyncState
  | .broadcast action now => (broadcastChange st action now).1
  | .message version => handleSyncMessage st version
  | .storage key newValue => handleStorageChange st key newValue
  | .focus resp now => (checkForUpdates st resp now).1
  | .pull resp now => (pullFromServer st resp now).1

/-- Run a sequence of stimuli from left to right. -/
def runOps (st : SyncState) : List SyncOp → SyncState
  | [] => st
  | op :: rest => runOps (stepOp st op) rest

/-- The clock-consistency condition a real same-device wall clock
satisfies: every `Date.now()` reading taken while stamping a broadcast
(directly or inside an accepted pull) is at least the last applied
version, and at least the stored version on the focus path. -/
def clockOk (st : SyncState) : SyncOp → Prop
  | .broadcast _ now => st.lastSyncTimestamp ≤ now
  | .message _ => True
  | .storage _ _ => True
  | .focus _ now => st.lastSyncTimestamp ≤ now ∧ st.storedVersion ≤ now
  | .pull _ now => st.lastSyncTimestamp ≤ now

/-- A whole stimulus sequence is clock-consistent when `clockOk` holds at
every intermediate state. -/
def ClockConsistent : SyncState → List SyncOp → Prop
  | _, [] => True
  | st, op :: rest => clockOk st op ∧ ClockConsistent (stepOp st op) rest

/-! ## Concrete sample values -/

/-- A concrete inventory row as the server returns it. -/
def itemA : ServerItem where
  id := 1
  itemType := "phone"
  brand := "Apple"
  model := "11"
  serial := "S1"
  source := "purchase"
  seller := none
  buy_price := 100
  base_sell_price := 150
  current_price := 150
  sold_price := none
  status := "available"
  visual_grade := "A"
  specs := none
  created_at := "2024-01-01"
  warranty_months := none
  warranty_expires := none
  sold_date := none
  sold_to := none
  price_override_reason := none

/-- A second row differing from `itemA`. -/
def itemB : ServerItem := { itemA with id := 2, serial := "S2" }

/-- `itemA` as mapped into local state. -/
def recA : LocalRecord := mapServerItem itemA

/-- A context holding `[recA]` at version 100, token held, idle. -/
def baseState : SyncState where
  token := some "tok"
  loggedOut := false
  useApi := true
  hasChannel := true
  lastSyncTimestamp := 100
  isSyncing := false
  inventory := [recA]
  storedInventory := [recA]
  storedVersion := 100
  pendingChanges := []

/-! ## Helper lemmas -/

/-- Resetting `isSyncing` to false is the identity on a state that was
not syncing. -/
theorem setIsSyncingFalse (st : SyncState) (h : st.isSyncing = false) :
    { st with isSyncing := false } = st := by
  cases st
  simp_all

/-- The guard of `pullFromServer` is open exactly when `USE_API` holds, a
token is held, and no pull is in flight. -/
theorem pullGuardOpen (st : SyncState) (h1 : st.useApi = true)
    (h2 : st.token.isNone = false) (h3 : st.isSyncing = false) :
    (!st.useApi || st.token.isNone || st.isSyncing) = false := by
  simp [h1, h2, h3]

/-- A pull leaves `lastSyncTimestamp` unchanged or sets it to the
`Date.now()` reading taken when broadcasting an accepted candidate. -/
theorem pull_lastSync (st : SyncState) (resp : HttpResponse) (now : Nat) :
    (pullFromServer st resp now).1.lastSyncTimestamp = st.lastSyncTimestamp ∨
    (pullFromServer st resp now).1.lastSyncTimestamp = now := by
  unfold pullFromServer
  split
  · exact Or.inl rfl
  · cases resp with
    | ok body =>
        cases body with
        | items l =>
            simp only [request]
            split
            · exact Or.inr rfl
            · exact Or.inl rfl
        | nonArray => exact Or.inl rfl
    | unauthorized => exact Or.inl rfl
    | httpError msg => exact Or.inl rfl
    | networkFailure => exact Or.inl rfl

/-! ## C1: stale-pull rejection -/

/-- C1 counterexample.  Local state holds `[recA]` at version 100; the
fetched candidate `[itemB]` differs in content.  The server response
carries no version marker at all, so we may regard it as stamped with any
stale marker, say 50 ≤ 100; the pull nevertheless accepts it: it saves
the candidate, replaces the local inventory and advances the stored
version, refuting the claim that a candidate with an older-or-equal
marker is rejected and local state left unchanged. -/
theorem stale_pull_accepted_cex :
    (50 : Nat) ≤ baseState.storedVersion ∧
    (pullFromServer baseState (.ok (.items [itemB])) 101).2.saved = true ∧
    (pullFromServer baseState (.ok (.items [itemB])) 101).1.inventory ≠
      baseState.inventory ∧
    (pullFromServer baseState (.ok (.items [itemB])) 101).1.storedVersion ≠
      baseState.storedVersion := by
  decide

/-- C1 (amended): `pullFromServer` reconciles by content alone — it
performs no version comparison on the candidate (the fetched rows carry
no version marker).  A candidate whose mapped records equal the local
records is rejected with the state unchanged; a candidate whose mapped
records differ is accepted unconditionally — however stale — replacing
the inventory and stamping a fresh clock reading as the stored
version. -/
theorem pull_content_only_reconciliation (st : SyncState)
    (items : List ServerItem) (now : Nat) (h1 : st.useApi = true)
    (h2 : st.token.isNone = false) (h3 : st.isSyncing = false) :
    (items.map mapServerItem = st.inventory →
      pullFromServer st (.ok (.items items)) now =
        (st, { fetched := true, saved := false, broadcastEvent := none })) ∧
    (items.map mapServerItem ≠ st.inventory →
      (pullFromServer st (.ok (.items items)) now).1.inventory =
        items.map mapServerItem ∧
      (pullFromServer st (.ok (.items items)) now).1.storedVersion = now ∧
      (pullFromServer st (.ok (.items items)) now).2.saved = true) := by
  unfold pullFromServer
  rw [pullGuardOpen st h1 h2 h3]
  simp only [request, Bool.false_eq_true, if_false]
  constructor
  · intro heq
    rw [if_neg]
    · simp [setIsSyncingFalse st h3]
    · simp [heq]
  · intro hne
    rw [if_pos]
    · simp [broadcastChange]
    · simpa using fun h => hne h.symm

/-- C1 witness: a concrete identical-content pull is rejected with the
state unchanged. -/
theorem pull_content_only_reconciliation_witness :
    pullFromServer baseState (.ok (.items [itemA])) 101 =
      (baseState, { fetched := true, saved := false, broadcastEvent := none }) :=
  (pull_content_only_reconciliation baseState [itemA] 101 rfl rfl rfl).1 (by decide)

/-! ## C2: version-clock strict monotonicity -/

/-- C2 counterexample.  Two broadcasts stamped within the same clock
millisecond (both read `Date.now() = 200`) issue equal markers: the
second marker is not strictly greater than the first, nor than the
marker already stored at call time — the code takes the raw clock
reading, with no tie-breaking against previously issued or stored
markers. -/
theorem version_clock_tie_cex :
    (broadcastChange baseState "add" 200).2.1 = 200 ∧
    (broadcastChange (broadcastChange baseState "add" 200).1 "update" 200).2.1 = 200 ∧
    ¬ ((broadcastChange (broadcastChange baseState "add" 200).1 "update" 200).2.1 >
        (broadcastChange baseState "add" 200).2.1) ∧
    ¬ ((broadcastChange (broadcastChange baseState "add" 200).1 "update" 200).2.1 >
        (broadcastChange baseState "add" 200).1.storedVersion) := by
  decide

/-- C2 (amended): the marker issued when broadcasting a local mutation is
exactly the wall-clock reading at the call, written as the stored marker
and `lastSyncTimestamp` verbatim; it exceeds the previously stored marker
precisely when the clock reading does — no `max(now, stored) + 1`
adjustment is applied, so strict growth holds only while successive clock
readings strictly increase. -/
theorem broadcastChange_version_is_clock_reading (st : SyncState)
    (action : String) (now : Nat) :
    (broadcastChange st action now).2.1 = now ∧
    (broadcastChange st action now).1.storedVersion = now ∧
    (broadcastChange st action now).1.lastSyncTimestamp = now ∧
    ((broadcastChange st action now).2.1 > st.storedVersion ↔
      now > st.storedVersion) := by
  simp [broadcastChange]

/-! ## C3: version monotonicity of the last-applied version -/

/-- C3 counterexample.  A local mutation broadcast while the wall clock
reads 5 — below the last applied version 100 — overwrites
`lastSyncTimestamp` unconditionally, so the last-applied version
decreases, refuting non-decrease over every stimulus sequence. -/
theorem lastSync_decrease_cex :
    (stepOp baseState (.broadcast "add" 5)).lastSyncTimestamp <
      baseState.lastSyncTimestamp := by
  decide

/-- Each single clock-consistent stimulus leaves `lastSyncTimestamp`
no smaller. -/
theorem stepOp_lastSync_mono (st : SyncState) (op : SyncOp)
    (h : clockOk st op) : st.lastSyncTimestamp ≤ (stepOp st op).lastSyncTimestamp := by
  cases op with
  | broadcast action now =>
      simpa [stepOp, broadcastChange] using h
  | message version =>
      simp only [stepOp, handleSyncMessage]
      split
      next hgt => exact Nat.le_of_lt hgt
      next => exact Nat.le_refl _
  | storage key newValue =>
      simp only [stepOp, handleStorageChange]
      split
      · split
        next hgt => exact Nat.le_of_lt hgt
        next => exact Nat.le_refl _
      · exact Nat.le_refl _
  | pull resp now =>
      rcases pull_lastSync st resp now with hc | hc
      · simp only [stepOp, hc]
        exact Nat.le_refl _
      · simp only [stepOp, hc]
        exact h
  | focus resp now =>
      obtain ⟨hl, hs⟩ := h
      simp only [stepOp, checkForUpdates]
      split
      next hgt =>
        split
        · rcases pull_lastSync { st with lastSyncTimestamp := st.storedVersion }
            resp now with hc | hc
          · rw [hc]
            exact Nat.le_of_lt hgt
          · rw [hc]
            exact hl
        · exact Nat.le_of_lt hgt
      next hle =>
        split
        · rcases pull_lastSync st resp now with hc | hc
          · rw [hc]
          · rw [hc]
            exact hl
        · exact Nat.le_refl _

/-- C3 (amended): over every clock-consistent stimulus sequence — local
broadcasts, received broadcasts, storage notifications, focus checks and
pulls, where each `Date.now()` reading used to stamp a broadcast is at
least the version already applied — the context's last-applied version
`lastSyncTimestamp` is non-decreasing.  The guarded paths
(`handleSyncMessage`, `handleStorageChange`, `checkForUpdates`) never
decrease it; only `broadcastChange`'s unconditional overwrite requires
the clock condition. -/
theorem lastSync_monotone_of_clockConsistent (st : SyncState)
    (ops : List SyncOp) (h : ClockConsistent st ops) :
    st.lastSyncTimestamp ≤ (runOps st ops).lastSyncTimestamp := by
  induction ops generalizing st with
  | nil => simp [runOps]
  | cons op rest ih =>
      obtain ⟨h1, h2⟩ := h
      exact le_trans (stepOp_lastSync_mono st op h1) (ih _ h2)

/-- C3 witness: a concrete clock-consistent trace (a broadcast at 150,
then a received message at 300) applied to the sample state. -/
theorem lastSync_monotone_witness :
    ClockConsistent baseState [SyncOp.broadcast "add" 150, SyncOp.message 300] ∧
    baseState.lastSyncTimestamp ≤
      (runOps baseState [SyncOp.broadcast "add" 150, SyncOp.message 300]).lastSyncTimestamp :=
  ⟨by simp [ClockConsistent, clockOk, stepOp, broadcastChange, baseState],
   lastSync_monotone_of_clockConsistent baseState _
     (by simp [ClockConsistent, clockOk, stepOp, broadcastChange, baseState])⟩

/-! ## C4: idempotence of pull -/

/-- C4: a pull whose fetched rows map to records structurally identical
(equivalently: serialized byte-for-byte identically) to the in-memory
inventory is a strict no-op beyond the fetch itself: the returned state
is exactly the input state (no localStorage write, stored version
untouched) and no broadcast event is posted; only a materially different
candidate takes the save-and-broadcast branch. -/
theorem pull_idempotent_on_identical_content (st : SyncState)
    (items : List ServerItem) (now : Nat) (h1 : st.useApi = true)
    (h2 : st.token.isNone = false) (h3 : st.isSyncing = false)
    (heq : items.map mapServerItem = st.inventory) :
    pullFromServer st (.ok (.items items)) now =
      (st, { fetched := true, saved := false, broadcastEvent := none }) := by
  unfold pullFromServer
  rw [pullGuardOpen st h1 h2 h3]
  simp only [request, Bool.false_eq_true, if_false]
  rw [if_neg]
  · simp [setIsSyncingFalse st h3]
  · simp [heq]

/-- C4 witness: refetching the content already held locally changes
nothing and broadcasts nothing. -/
theorem pull_idempotent_witness :
    pullFromServer baseState (.ok (.items [itemA])) 300 =
      (baseState, { fetched := true, saved := false, broadcastEvent := none }) :=
  pull_idempotent_on_identical_content baseState [itemA] 300 rfl rfl rfl (by decide)

/-! ## C5: single-flight pulls -/

/-- C5: any `pullFromServer` trigger (timer tick, visibility event or
explicit call — all of which enter through this function) that fires
while `isSyncing` is true returns immediately: no remote fetch is
issued and the state is completely unchanged, so at most one pull-path
fetch is in flight per context. -/
theorem pull_single_flight (st : SyncState) (resp : HttpResponse) (now : Nat)
    (h : st.isSyncing = true) :
    pullFromServer st resp now =
      (st, { fetched := false, saved := false, broadcastEvent := none }) := by
  simp [pullFromServer, h]

/-- C5 witness: a concrete trigger during an in-flight pull is dropped. -/
theorem pull_single_flight_witness :
    pullFromServer { baseState with isSyncing := true } (.ok (.items [itemB])) 400 =
      ({ baseState with isSyncing := true },
       { fetched := false, saved := false, broadcastEvent := none }) :=
  pull_single_flight { baseState with isSyncing := true } (.ok (.items [itemB])) 400 rfl

/-! ## Drain characterization -/

/-- Re-enqueueing tag: the pending change `pushToServer` re-creates for a
failed submission. -/
def retag (now : Nat) (c : PendingChange) : PendingChange :=
  { action := c.action, itemData := c.itemData, timestamp := now }

/-- Full characterization of the drain loop when a token is held: every
swapped-out change is submitted exactly once, in order, with failures —
and only failures — re-enqueued (freshly stamped) in order behind the
queue contents present at loop entry. -/
theorem drainLoop_spec (changes : List PendingChange) (st : SyncState)
    (outcome : PendingChange → PushOutcome) (now : Nat)
    (h1 : st.useApi = true) (h2 : st.token.isNone = false) :
    drainLoop st changes outcome now =
      ({ st with pendingChanges := st.pendingChanges ++
          ((changes.filter fun c => (outcome c).isFailure).map (retag now)) },
       changes.map fun c =>
         (c, { submitted := true, result := !(outcome c).isFailure })) := by
  induction changes generalizing st with
  | nil => simp [drainLoop]
  | cons c rest ih =>
      simp only [drainLoop, pushToServer]
      have hguard : (!st.useApi || st.token.isNone) = false := by simp [h1, h2]
      rw [hguard]
      simp only [Bool.false_eq_true, if_false]
      cases houtc : outcome c with
      | success =>
          rw [ih st h1 h2]
          simp [houtc, PushOutcome.isFailure, List.filter_cons]
      | failure msg =>
          rw [ih]
          · simp [houtc, PushOutcome.isFailure, List.filter_cons, retag,
              List.append_assoc]
          · exact h1
          · exact h2

/-- Full characterization of one `retryPendingChanges` cycle when a token
is held: the queue is swapped out, every previously queued change is
submitted exactly once in enqueue order, and afterwards the queue holds
exactly the failed changes, freshly stamped, in order. -/
theorem retry_spec (st : SyncState) (outcome : PendingChange → PushOutcome)
    (now : Nat) (h1 : st.useApi = true) (h2 : st.token.isNone = false) :
    retryPendingChanges st outcome now =
      ({ st with pendingChanges :=
          (st.pendingChanges.filter fun c => (outcome c).isFailure).map (retag now) },
       st.pendingChanges.map fun c =>
         (c, { submitted := true, result := !(outcome c).isFailure })) := by
  unfold retryPendingChanges
  split
  next hemp =>
      have hnil : st.pendingChanges = [] := by
        simpa using hemp
      cases st
      simp_all
  next hne =>
      simpa using drainLoop_spec st.pendingChanges
        { st with pendingChanges := [] } outcome now h1 h2

/-- The state component of one drain cycle with a token held: the queue
afterwards holds exactly the freshly stamped failures, in order. -/
theorem retry_state (s : SyncState) (outcome : PendingChange → PushOutcome)
    (now : Nat) (h1 : s.useApi = true) (h2 : s.token.isNone = false) :
    (retryPendingChanges s outcome now).1 =
      { s with pendingChanges :=
          (s.pendingChanges.filter fun c => (outcome c).isFailure).map (retag now) } :=
  congrArg Prod.fst (retry_spec s outcome now h1 h2)

/-- The submission list of one drain cycle with a token held is exactly
the queue at drain start, in enqueue order. -/
theorem retry_submits_queue (s : SyncState) (outcome : PendingChange → PushOutcome)
    (now : Nat) (h1 : s.useApi = true) (h2 : s.token.isNone = false) :
    (retryPendingChanges s outcome now).2.map Prod.fst = s.pendingChanges := by
  rw [retry_spec s outcome now h1 h2]
  simp [Function.comp_def]

/-! ## C6: retry preserves data -/

/-- C6: during a drain with a token held, the queue is swapped out at
drain start, every swapped-out operation is submitted exactly once in
order (so an operation that succeeded in this drain is never submitted
twice), every operation whose submission fails is present in the queue
after the drain (re-enqueued by the failure path), and the next drain
cycle resubmits exactly the queue left by this one. -/
theorem retry_preserves_data (st : SyncState)
    (outcome : PendingChange → PushOutcome) (now : Nat)
    (h1 : st.useApi = true) (h2 : st.token.isNone = false) :
    ((retryPendingChanges st outcome now).2.map Prod.fst = st.pendingChanges) ∧
    ((retryPendingChanges st outcome now).1.pendingChanges =
      (st.pendingChanges.filter fun c => (outcome c).isFailure).map (retag now)) ∧
    (∀ c, c ∈ st.pendingChanges → (outcome c).isFailure = true →
      retag now c ∈ (retryPendingChanges st outcome now).1.pendingChanges) ∧
    ((retryPendingChanges (retryPendingChanges st outcome now).1 outcome now).2.map
        Prod.fst =
      (retryPendingChanges st outcome now).1.pendingChanges) := by
  have hstate := retry_state st outcome now h1 h2
  have h1b : (retryPendingChanges st outcome now).1.useApi = true := by
    rw [hstate]
    exact h1
  have h2b : (retryPendingChanges st outcome now).1.token.isNone = false := by
    rw [hstate]
    exact h2
  refine ⟨retry_submits_queue st outcome now h1 h2, by rw [hstate], ?_,
    retry_submits_queue _ outcome now h1b h2b⟩
  intro c hc hf
  rw [hstate]
  simp only [List.mem_map, List.mem_filter]
  exact ⟨c, ⟨hc, hf⟩, rfl⟩

/-- C6 witness: a queue of two concrete operations, the first failing and
the second succeeding, drained at a context holding a token. -/
theorem retry_preserves_data_witness :
    (((retryPendingChanges
        { baseState with pendingChanges :=
          [{ action := "add", itemData := recA, timestamp := 10 },
           { action := "update", itemData := recA, timestamp := 11 }] }
        (fun c => if c.action = "add" then .failure "net" else .success) 60).2.map
        Prod.fst) =
      [{ action := "add", itemData := recA, timestamp := 10 },
       { action := "update", itemData := recA, timestamp := 11 }]) ∧
    ((retryPendingChanges
        { baseState with pendingChanges :=
          [{ action := "add", itemData := recA, timestamp := 10 },
           { action := "update", itemData := recA, timestamp := 11 }] }
        (fun c => if c.action = "add" then .failure "net" else .success) 60).1.pendingChanges =
      [{ action := "add", itemData := recA, timestamp := 60 }]) :=
  ⟨(retry_preserves_data
      { baseState with pendingChanges :=
        [{ action := "add", itemData := recA, timestamp := 10 },
         { action := "update", itemData := recA, timestamp := 11 }] }
      (fun c => if c.action = "add" then .failure "net" else .success) 60 rfl rfl).1,
   by
    rw [(retry_preserves_data
      { baseState with pendingChanges :=
        [{ action := "add", itemData := recA, timestamp := 10 },
         { action := "update", itemData := recA, timestamp := 11 }] }
      (fun c => if c.action = "add" then .failure "net" else .success) 60 rfl rfl).2.1]
    decide⟩

/-! ## C7: bounded-retry lifecycle -/

/-- A concrete queued operation. -/
def pcA : PendingChange := { action := "add", itemData := recA, timestamp := 10 }

/-- A context that has lost its token while one operation is queued. -/
def stNoToken : SyncState :=
  { baseState with token := none, pendingChanges := [pcA] }

/-- C7 counterexample.  A drain performed while no token is held empties
the queue without submitting anything and without surfacing anything to
anyone: `pushToServer`'s guard returns null before the try block, so the
swapped-out operation is neither sent nor re-enqueued nor reported — it
is silently discarded, refuting the claimed lifecycle (and no attempts
counter exists to be incremented or bounded). -/
theorem pending_silently_discarded_cex :
    stNoToken.pendingChanges = [pcA] ∧
    retryPendingChanges stNoToken (fun _ => PushOutcome.success) 50 =
      ({ stNoToken with pendingChanges := [] },
       [(pcA, { submitted := false, result := false })]) ∧
    stNoToken.loggedOut = false := by
  decide

/-- C7 (amended): with `USE_API` on and a token held, an operation is
removed from the queue when its submission succeeds and re-enqueued
(freshly stamped, with no attempts counter) on any failure; no retry
bound exists — under persistently failing submissions the same
operations are still queued, unchanged up to timestamps, after every
number of drain cycles, the caller receiving only null each time; while
no token is held, a drain silently discards all drained operations. -/
theorem pending_unbounded_retry (st : SyncState)
    (outcome : PendingChange → PushOutcome) (now n : Nat)
    (h1 : st.useApi = true) (h2 : st.token.isNone = false)
    (hfail : ∀ c, (outcome c).isFailure = true) :
    ((iterDrain n st outcome now).pendingChanges.map
        (fun c => (c.action, c.itemData)) =
      st.pendingChanges.map fun c => (c.action, c.itemData)) ∧
    (iterDrain n st outcome now).useApi = st.useApi ∧
    (iterDrain n st outcome now).token = st.token := by
  induction n generalizing st with
  | zero => exact ⟨rfl, rfl, rfl⟩
  | succ n ih =>
      simp only [iterDrain]
      have hstate := retry_state st outcome now h1 h2
      have h1b : (retryPendingChanges st outcome now).1.useApi = true := by
        rw [hstate]
        exact h1
      have h2b : (retryPendingChanges st outcome now).1.token.isNone = false := by
        rw [hstate]
        exact h2
      obtain ⟨ha, hb, hc⟩ := ih (retryPendingChanges st outcome now).1 h1b h2b
      have hfilter : st.pendingChanges.filter (fun c => (outcome c).isFailure) =
          st.pendingChanges :=
        List.filter_eq_self.mpr fun c _ => hfail c
      refine ⟨?_, ?_, ?_⟩
      · rw [ha, hstate]
        simp [hfilter, retag, List.map_map, Function.comp]
      · rw [hb, hstate]
      · rw [hc, hstate]

/-- C7 witness: three all-failing drain cycles leave the concrete queued
operation still pending. -/
theorem pending_unbounded_retry_witness :
    ((iterDrain 3 { baseState with pendingChanges := [pcA] }
        (fun _ => PushOutcome.failure "net") 50).pendingChanges.map
        (fun c => (c.action, c.itemData)) =
      [("add", recA)]) := by
  rw [(pending_unbounded_retry { baseState with pendingChanges := [pcA] }
    (fun _ => PushOutcome.failure "net") 50 3 rfl rfl (fun _ => rfl)).1]
  decide

/-! ## C8: queue drains to empty under connectivity -/

/-- C8: with `USE_API` on and a token held, if every submission in the
drain succeeds then after one `retryPendingChanges` cycle the pending
queue is empty and the operations were submitted exactly once each, in
their original enqueue (FIFO) order, each producing a result. -/
theorem queue_drains_to_empty (st : SyncState)
    (outcome : PendingChange → PushOutcome) (now : Nat)
    (h1 : st.useApi = true) (h2 : st.token.isNone = false)
    (hsucc : ∀ c ∈ st.pendingChanges, outcome c = .success) :
    ((retryPendingChanges st outcome now).1.pendingChanges = []) ∧
    ((retryPendingChanges st outcome now).2.map Prod.fst = st.pendingChanges) ∧
    (∀ p ∈ (retryPendingChanges st outcome now).2,
      p.2 = { submitted := true, result := true }) := by
  refine ⟨?_, retry_submits_queue st outcome now h1 h2, ?_⟩
  · rw [retry_state st outcome now h1 h2]
    have : st.pendingChanges.filter (fun c => (outcome c).isFailure) = [] := by
      rw [List.filter_eq_nil_iff]
      intro c hc
      rw [hsucc c hc]
      simp [PushOutcome.isFailure]
    simp [this]
  · intro p hp
    rw [retry_spec st outcome now h1 h2] at hp
    simp only [List.mem_map] at hp
    obtain ⟨c, hc, hpc⟩ := hp
    rw [hsucc c hc] at hpc
    simp only [PushOutcome.isFailure, Bool.not_false] at hpc
    exact hpc ▸ rfl

/-! ## C9: auth-expired handling -/

/-- C9: a request answered with a 401 clears the held credential, invokes
the logout path (the session-expired condition surfaced to the hosting
application), and throws the session-expired error to its caller instead
of retrying; with the credential cleared, every subsequent
`pullFromServer` attempt is a no-op that issues no fetch and leaves the
state untouched. -/
theorem auth_expired_halts_sync (st : SyncState) (resp : HttpResponse)
    (now : Nat) :
    (request st .unauthorized).1.token = none ∧
    (request st .unauthorized).1.loggedOut = true ∧
    (request st .unauthorized).2 = Except.error RequestError.sessionExpired ∧
    pullFromServer (request st .unauthorized).1 resp now =
      ((request st .unauthorized).1,
       { fetched := false, saved := false, broadcastEvent := none }) := by
  refine ⟨rfl, rfl, rfl, ?_⟩
  simp [pullFromServer, request]

/-! ## C10: isSyncing is cleared on every completed pull -/

/-- C10: every `pullFromServer` invocation that actually starts a pull
(the guard passes, so a fetch is issued) finishes with `isSyncing` false,
whatever the fetch produced — accepted content, rejected identical
content, a malformed body, a null network fallback, a 401 or any thrown
error — so one failed or rejected pull can never permanently block later
pulls. -/
theorem pull_clears_isSyncing (st : SyncState) (resp : HttpResponse)
    (now : Nat) (h1 : st.useApi = true) (h2 : st.token.isNone = false)
    (h3 : st.isSyncing = false) :
    (pullFromServer st resp now).2.fetched = true ∧
    (pullFromServer st resp now).1.isSyncing = false := by
  unfold pullFromServer
  rw [pullGuardOpen st h1 h2 h3]
  simp only [Bool.false_eq_true, if_false]
  cases resp with
  | ok body =>
      cases body with
      | items l =>
          simp only [request]
          split
          · exact ⟨rfl, rfl⟩
          · exact ⟨rfl, rfl⟩
      | nonArray => exact ⟨rfl, rfl⟩
  | unauthorized => exact ⟨rfl, rfl⟩
  | httpError msg => exact ⟨rfl, rfl⟩
  | networkFailure => exact ⟨rfl, rfl⟩

/-- C10 witness: a pull that starts and then throws (network failure)
still ends with `isSyncing` false. -/
theorem pull_clears_isSyncing_witness :
    (pullFromServer baseState .networkFailure 500).2.fetched = true ∧
    (pullFromServer baseState .networkFailure 500).1.isSyncing = false :=
  pull_clears_isSyncing baseState .networkFailure 500 rfl rfl rfl

/-- C8 witness: a concrete queue of one operation drains to empty when
the submission succeeds. -/
theorem queue_drains_to_empty_witness :
    ((retryPendingChanges { baseState with pendingChanges := [pcA] }
        (fun _ => PushOutcome.success) 70).1.pendingChanges = []) ∧
    ((retryPendingChanges { baseState with pendingChanges := [pcA] }
        (fun _ => PushOutcome.success) 70).2.map Prod.fst = [pcA]) :=
  ⟨(queue_drains_to_empty { baseState with pendingChanges := [pcA] }
      (fun _ => PushOutcome.success) 70 rfl rfl (fun _ _ => rfl)).1,
   (queue_drains_to_empty { baseState with pendingChanges := [pcA] }
      (fun _ => PushOutcome.success) 70 rfl rfl (fun _ _ => rfl)).2.1⟩
